import Mathlib

/-!
Verification of the irdata client library (popmonkey/irdata).

This file embeds, shallowly, the parts of the Go sources relevant to the
spec's claims: the JSON value/object model used by `resolveChunks`
(irdata.go), the rate-limited retrying transport `retryingGet` (irdata.go),
the public fetch operations `Get` and `GetWithCache` (irdata.go), the cache
shutdown procedure `cacheClose` (cache.go), and the secret-masking function
`maskSecret` (auth.go) together with concrete SHA-256 and base64.

Network, cache-store and clock effects are passed explicitly: the HTTP
client is a list of pending network events consumed one per request
attempt, the bitcask store is an oracle of lookup/store/merge outcomes, and
`time.Now()` is an integer parameter.
-/

namespace Irdata

/-! ## Go JSON values

`encoding/json.Unmarshal` into `interface\x7b\x7d` produces nil, bool, float64,
string, `[]interface\x7b\x7d` and `map[string]interface\x7b\x7d`.  We model numbers as
integers (the claims never exercise fractional values).  `nilSlice` is the
nil `[]interface\x7b\x7d` slice that `resolveChunks` can store under the chunk-data
key: a nil Go slice is a distinct value from an empty one, and
`json.Marshal` renders it as JSON null rather than `[]`.  Objects are
association lists (Go maps are unordered; `json.Marshal` emits keys
sorted, which `jsonMarshal` below reproduces). -/

inductive GoVal : Type where
  | null : GoVal
  | boolV (b : Bool) : GoVal
  | num (n : Int) : GoVal
  | str (s : String) : GoVal
  | arr (elems : List GoVal) : GoVal
  | nilSlice : GoVal
  | obj (fields : List (String × GoVal)) : GoVal

instance : Inhabited GoVal := ⟨GoVal.null⟩

/-- Key of the injected merged chunk data (`ChunkDataKey` in irdata.go). -/
def ChunkDataKey : String := "_chunk_data"

def chunkInfoKey : String := "chunk_info"

def chunkFileNamesKey : String := "chunk_file_names"

def baseDownloadUrlKey : String := "base_download_url"

def linkKey : String := "link"

def dataUrlKey : String := "data_url"

/-- Go map read `m[k]`: the first binding of `k`, if any. -/
def lookupField : List (String × GoVal) → String → Option GoVal
  | [], _ => none
  | (k, v) :: rest, key => if k = key then some v else lookupField rest key

/-- Go map write `m[k] = v`: replace the binding of `k`, or append it. -/
def setField : List (String × GoVal) → String → GoVal → List (String × GoVal)
  | [], key, v => [(key, v)]
  | (k, w) :: rest, key, v =>
      if k = key then (key, v) :: rest else (k, w) :: setField rest key v

/-- The Go slice `results` in `resolveChunks` starts as the nil slice
(`var results []interface\x7b\x7d`) and only `append(results, r...)` is applied to
it, so it is nil exactly when no element was ever appended. -/
def goSlice (l : List GoVal) : GoVal :=
  if l.isEmpty then GoVal.nilSlice else GoVal.arr l

/-- `fmt.Sprintf` `%s` rendering of a dynamic JSON value.  Strings print
verbatim; other values print through fmt's error format, which the library
only ever reaches on malformed responses (approximated by a tag). -/
def goFormatS : GoVal → String
  | GoVal.str s => s
  | GoVal.null => "%!s(<nil>)"
  | _ => "%!s(non-string)"

/-! ## JSON marshalling (`encoding/json.Marshal`)

Minimal string escaping (quote and backslash); control characters and
Go's HTML escaping are not exercised by any claim.  Map keys are emitted
in sorted order, as `json.Marshal` does for Go maps. -/

def escapeJsonChar (c : Char) : String :=
  if c = Char.ofNat 34 then String.mk [Char.ofNat 92, Char.ofNat 34]
  else if c = Char.ofNat 92 then String.mk [Char.ofNat 92, Char.ofNat 92]
  else String.mk [c]

def escapeJsonString (s : String) : String :=
  String.join (s.data.map escapeJsonChar)

def quoteJson (s : String) : String :=
  String.mk [Char.ofNat 34] ++ escapeJsonString s ++ String.mk [Char.ofNat 34]

/-- Lexicographic order on code points (Go compares string bytes; the two
agree on ASCII keys). -/
def charListLt : List Char → List Char → Bool
  | [], [] => false
  | [], _ :: _ => true
  | _ :: _, [] => false
  | c :: cs, d :: ds => if c < d then true else if d < c then false else charListLt cs ds

def keyLt (a b : String) : Bool := charListLt a.data b.data

/-- Insert a keyed field into a key-sorted field list. -/
def insertSorted (p : String × GoVal) : List (String × GoVal) → List (String × GoVal)
  | [] => [p]
  | q :: rest => if keyLt p.1 q.1 then p :: q :: rest else q :: insertSorted p rest

def sortFields : List (String × GoVal) → List (String × GoVal)
  | [] => []
  | p :: rest => insertSorted p (sortFields rest)

mutual

/-- Sort every (nested) object's fields by key, as `json.Marshal` renders
Go maps in sorted key order. -/
def sortDeep : GoVal → GoVal
  | GoVal.obj fs => GoVal.obj (sortFields (sortDeepFields fs))
  | GoVal.arr l => GoVal.arr (sortDeepList l)
  | v => v

def sortDeepFields : List (String × GoVal) → List (String × GoVal)
  | [] => []
  | (k, v) :: rest => (k, sortDeep v) :: sortDeepFields rest

def sortDeepList : List GoVal → List GoVal
  | [] => []
  | v :: rest => sortDeep v :: sortDeepList rest

end

mutual

def jsonRender : GoVal → String
  | GoVal.null => "null"
  | GoVal.boolV true => "true"
  | GoVal.boolV false => "false"
  | GoVal.num n => toString n
  | GoVal.str s => quoteJson s
  | GoVal.nilSlice => "null"
  | GoVal.arr l => "[" ++ jsonRenderList l ++ "]"
  | GoVal.obj fs => "\x7b" ++ jsonRenderFields fs ++ "\x7d"

def jsonRenderList : List GoVal → String
  | [] => ""
  | [v] => jsonRender v
  | v :: rest => jsonRender v ++ "," ++ jsonRenderList rest

def jsonRenderFields : List (String × GoVal) → String
  | [] => ""
  | [(k, v)] => quoteJson k ++ ":" ++ jsonRender v
  | (k, v) :: rest => quoteJson k ++ ":" ++ jsonRender v ++ "," ++ jsonRenderFields rest

end

/-- `encoding/json.Marshal`. -/
def jsonMarshal (v : GoVal) : String :=
  jsonRender (sortDeep v)

def leadMatches : List Char → List Char → Bool
  | _, [] => true
  | [], _ :: _ => false
  | c :: cs, d :: ds => if c = d then leadMatches cs ds else false

def listContainsSub : List Char → List Char → Bool
  | [], pat => leadMatches [] pat
  | c :: cs, pat =>
      if leadMatches (c :: cs) pat then true else listContainsSub cs pat

/-- `bytes.Contains(s, pat)` on the textual body. -/
def strContains (s pat : String) : Bool :=
  listContainsSub s.data pat.data

/-! ## Chunk resolution (`resolveChunks`, irdata.go)

A failed Go type assertion (`v.(map[string]interface\x7b\x7d)` or
`.([]interface\x7b\x7d)`) panics; panics propagate out of nested calls, unlike
error returns, which the recursive call site discards.  Fetching one chunk
(`retryingGet` + `io.ReadAll` + `json.Unmarshal` into `[]interface\x7b\x7d`) is
abstracted as one oracle `net : String → Except String (List GoVal)`. -/

inductive GoPanic : Type where
  | typeAssert : GoPanic
  | nilDeref : GoPanic

/-- `fmt.Sprintf("%s%s", chunkInfo["base_download_url"], chunkFileName)`;
a missing map key reads as nil. -/
def chunkUrlOf (ci : List (String × GoVal)) (fn : GoVal) : String :=
  goFormatS ((lookupField ci baseDownloadUrlKey).getD GoVal.null) ++ goFormatS fn

/-- The fetch loop over `chunk_file_names`, accumulating into the Go
slice `results` via `append(results, r...)`; the first fetch/parse error
aborts the loop and is returned. -/
def fetchChunksLoop (net : String → Except String (List GoVal))
    (ci : List (String × GoVal)) :
    List GoVal → List GoVal → Except String (List GoVal)
  | [], results => Except.ok results
  | fn :: rest, results =>
      match net (chunkUrlOf ci fn) with
      | Except.error e => Except.error e
      | Except.ok r => fetchChunksLoop net ci rest (results ++ r)

/-- The body of the `k == "chunk_info"` branch: with `v == nil` the loop is
skipped and `results` stays nil (empty); otherwise `v` must type-assert to
an object whose `chunk_file_names` type-asserts to a slice, else panic. -/
def computeChunkResults (net : String → Except String (List GoVal)) :
    GoVal → Except GoPanic (Except String (List GoVal))
  | GoVal.null => Except.ok (Except.ok [])
  | GoVal.obj ci =>
      match (lookupField ci chunkFileNamesKey).getD GoVal.null with
      | GoVal.arr fns => Except.ok (fetchChunksLoop net ci fns [])
      | _ => Except.error GoPanic.typeAssert
  | _ => Except.error GoPanic.typeAssert

/-- Result type of one level of the entries loop: the processed entries,
the merged chunk slice if a `chunk_info` key was processed at this level,
and the first error raised at this level. -/
abbrev EntriesResult :=
  Except GoPanic (List (String × GoVal) × Option (List GoVal) × Option String)

/-- The `k == "chunk_info"` arm.  On a chunk fetch/parse error the Go loop
returns immediately, so the remaining entries stay unprocessed and no
chunk data is recorded; on success the processed tail is used.  (`tail` is
the pure value of processing the remaining entries; in the error arm it is
discarded, matching the source, which never computes it there.) -/
def chunkArm (kv : String × GoVal) (rest : List (String × GoVal))
    (res : Except GoPanic (Except String (List GoVal)))
    (tail : EntriesResult) : EntriesResult :=
  match res with
  | Except.error p => Except.error p
  | Except.ok (Except.error e) => Except.ok (kv :: rest, none, some e)
  | Except.ok (Except.ok results) =>
      match tail with
      | Except.error p => Except.error p
      | Except.ok (rest2, _, errOpt) => Except.ok (kv :: rest2, some results, errOpt)

/-- A non-chunk entry holding a nested object: the recursive call's error
is discarded by the source (`i.resolveChunks(o)` without assignment) while
its panic propagates. -/
def objArm (k : String) (ro : Except GoPanic (List (String × GoVal) × Option String))
    (tail : EntriesResult) : EntriesResult :=
  match ro with
  | Except.error p => Except.error p
  | Except.ok (o2, _errDiscarded) =>
      match tail with
      | Except.error p => Except.error p
      | Except.ok (rest2, cd, errOpt) => Except.ok ((k, GoVal.obj o2) :: rest2, cd, errOpt)

/-- A non-chunk, non-object entry is left unchanged. -/
def plainArm (k : String) (w : GoVal) (tail : EntriesResult) : EntriesResult :=
  match tail with
  | Except.error p => Except.error p
  | Except.ok (rest2, cd, errOpt) => Except.ok ((k, w) :: rest2, cd, errOpt)

/-- Final step of `resolveChunks`: when a `chunk_info` key was processed,
store the merged slice under `ChunkDataKey` (the source stores it
mid-iteration; with unique map keys and no pre-existing chunk-data key the
final map is the same). -/
def finishResolve (r : EntriesResult) :
    Except GoPanic (List (String × GoVal) × Option String) :=
  match r with
  | Except.error p => Except.error p
  | Except.ok (es, some results, errOpt) =>
      Except.ok (setField es ChunkDataKey (goSlice results), errOpt)
  | Except.ok (es, none, errOpt) => Except.ok (es, errOpt)

mutual

/-- A non-chunk entry: recurse into an object value, keep anything else. -/
def nonChunkArm (net : String → Except String (List GoVal)) (k : String)
    (v : GoVal) (tail : EntriesResult) : EntriesResult :=
  match v with
  | GoVal.obj o => objArm k (resolveChunks net o) tail
  | w => plainArm k w tail

/-- The `for k, v := range raw` loop of `resolveChunks`. -/
def resolveEntries (net : String → Except String (List GoVal)) :
    List (String × GoVal) → EntriesResult
  | [] => Except.ok ([], none, none)
  | (k, v) :: rest =>
      if k = chunkInfoKey then
        chunkArm (k, v) rest (computeChunkResults net v) (resolveEntries net rest)
      else
        nonChunkArm net k v (resolveEntries net rest)

/-- `resolveChunks` on one object. -/
def resolveChunks (net : String → Except String (List GoVal))
    (raw : List (String × GoVal)) :
    Except GoPanic (List (String × GoVal) × Option String) :=
  finishResolve (resolveEntries net raw)

end

/-! ## Rate limiting and the retrying transport (irdata.go)

One `NetEvent` is consumed per `httpClient.Get` call.  Rate-limit headers
arrive pre-parsed: `hdrRemaining`/`hdrReset` are `none` when the header is
absent or non-numeric (in which case `updateRateLimit` keeps the old
value).  `time.Now()` is the parameter `now`; sleeping is not modelled (no
claim depends on elapsed time). -/

structure HttpResp : Type where
  status : Nat
  hdrRemaining : Option Int
  hdrReset : Option Int
  bodyVal : GoVal

inductive NetEvent : Type where
  | failure (e : String)
  | success (r : HttpResp)

structure RLState : Type where
  remaining : Int
  reset : Int

/-- `RateLimitHandler` with its two constants. -/
inductive RateLimitHandler : Type where
  | RateLimitError
  | RateLimitWait

/-- `updateRateLimit`: adopt whichever of the two headers parsed. -/
def updateRateLimit (st : RLState) (r : HttpResp) : RLState :=
  { remaining := r.hdrRemaining.getD st.remaining
    reset := r.hdrReset.getD st.reset }

/-- Result of `retryingGet` as the pair `(resp, err)` plus bookkeeping:
`finished r?` is `(resp, nil)` — with `r? = none` when the retry loop never
ran and the function returns its zero values `(nil, nil)`;
`rateLimitExceeded t` is `(nil, &RateLimitExceededError\x7bResetTime: t\x7d)`;
`netError e` is the immediate `(nil, err)` return on a transport error.
`needMoreNet` is a model artifact: the supplied event list ran out while
the loop still wanted another attempt. -/
inductive GetOutcome : Type where
  | rateLimitExceeded (resetAt : Int)
  | netError (e : String)
  | finished (r : Option HttpResp)
  | needMoreNet

/-- The `for retries > 0` loop of `retryingGet`.  Arguments: remaining
retries, rate-limit state, last assigned `resp`, attempts issued so far,
pending network events.  Returns the outcome, the final rate-limit state,
the total number of `httpClient.Get` calls issued, and the unconsumed
events. -/
def rgLoop (handler : RateLimitHandler) :
    List NetEvent → Int → RLState → Option HttpResp → Nat →
    GetOutcome × RLState × Nat × List NetEvent
  | events, retries, st, lastResp, attempts =>
    if retries > 0 then
      match events with
      | [] => (GetOutcome.needMoreNet, st, attempts, [])
      | NetEvent.failure e :: rest => (GetOutcome.netError e, st, attempts + 1, rest)
      | NetEvent.success r :: rest =>
          let st2 := updateRateLimit st r
          if r.status = 429 then
            match handler with
            | RateLimitHandler.RateLimitError =>
                (GetOutcome.rateLimitExceeded st2.reset, st2, attempts + 1, rest)
            | RateLimitHandler.RateLimitWait =>
                rgLoop handler rest retries st2 (some r) (attempts + 1)
          else if r.status < 500 then
            (GetOutcome.finished (some r), st2, attempts + 1, rest)
          else
            rgLoop handler rest (retries - 1) st2 (some r) (attempts + 1)
    else
      (GetOutcome.finished lastResp, st, attempts, events)

/-- `retryingGet`: the proactive rate-limit check, then the retry loop
with `retries := i.getRetries`.  Under the Wait policy the proactive
branch sleeps until the reset time and then enters the loop. -/
def retryingGet (now : Int) (handler : RateLimitHandler) (getRetries : Int)
    (st : RLState) (events : List NetEvent) :
    GetOutcome × RLState × Nat × List NetEvent :=
  if st.remaining ≤ 0 ∧ now < st.reset then
    match handler with
    | RateLimitHandler.RateLimitError =>
        (GetOutcome.rateLimitExceeded st.reset, st, 0, events)
    | RateLimitHandler.RateLimitWait =>
        rgLoop handler events getRetries st none 0
  else
    rgLoop handler events getRetries st none 0

/-! ## The public fetch operations (irdata.go) -/

/-- Client state: `isAuthed`, whether `cask` is non-nil, the configured
rate-limit handler, `getRetries`, and the shared rate-limit fields. -/
structure Client : Type where
  isAuthed : Bool
  cacheEnabled : Bool
  handler : RateLimitHandler
  getRetries : Int
  rl : RLState

/-- `SetRetries`. -/
def SetRetries (c : Client) (retries : Int) : Client :=
  { c with getRetries := retries }

/-- `SetRateLimitHandler`. -/
def SetRateLimitHandler (c : Client) (handler : RateLimitHandler) : Client :=
  { c with handler := handler }

/-- Errors surfaced by `Get`/`GetWithCache`: `makeErrorf` strings, the
typed `RateLimitExceededError`, transport errors, and errors bubbled out
of chunk fetching.  `modelOutOfEvents` mirrors `GetOutcome.needMoreNet`. -/
inductive GoErr : Type where
  | msg (s : String)
  | rateLimit (resetAt : Int)
  | net (e : String)
  | chunk (e : String)
  | modelOutOfEvents

def mustAuthMsg : String := "irdata: must auth first"

def cacheMustMsg : String := "irdata: cache must be enabled"

def non200Msg (status : Nat) (body : String) : String :=
  "irdata: received non-200 status code: " ++ toString status ++ " - body: " ++ body

def unmarshalFailMsg : String := "json: cannot unmarshal body into map"

/-- `json.Unmarshal(data, &s3Link) == nil && s3Link.Link != ""`:
a top-level object whose `link` field is a non-empty string.  A non-object
body or a non-string `link` make the unmarshal fail, and a missing `link`
leaves the field empty; all of those take the else branch. -/
def s3LinkOf : GoVal → Option String
  | GoVal.obj fs =>
      match lookupField fs linkKey with
      | some (GoVal.str s) => if s = "" then none else some s
      | _ => none
  | _ => none

/-- Same shape check for `dataUrlT` and its `data_url` field. -/
def dataUrlOf : GoVal → Option String
  | GoVal.obj fs =>
      match lookupField fs dataUrlKey with
      | some (GoVal.str s) => if s = "" then none else some s
      | _ => none
  | _ => none

/-- The chunk-resolution tail of `Get`: `data` is the working body.  The
`bytes.Contains` pre-check, then unmarshal as a map (failing for a
non-object body), `resolveChunks`, and re-marshal. -/
def getChunkPhase (chunkNet : String → Except String (List GoVal))
    (w : GoVal) (attempts : Nat) :
    Except GoPanic ((Option String × Option GoErr) × Nat) :=
  let data := jsonMarshal w
  if strContains data chunkInfoKey then
    match w with
    | GoVal.obj fs =>
        match resolveChunks chunkNet fs with
        | Except.error p => Except.error p
        | Except.ok (_, some e) => Except.ok ((none, some (GoErr.chunk e)), attempts)
        | Except.ok (fs2, none) =>
            Except.ok ((some (jsonMarshal (GoVal.obj fs2)), none), attempts)
    | _ => Except.ok ((none, some (GoErr.msg unmarshalFailMsg)), attempts)
  else
    Except.ok ((some data, none), attempts)

/-- The redirect-following middle of `Get`: after the primary response
`r`, follow at most one `link`/`data_url` indirection (the source does not
check the status of the secondary response), then resolve chunks.  Bodies
are modelled as their JSON parse; the byte-level body is `jsonMarshal` of
it. -/
def getFollowPhase (c : Client) (now : Int)
    (chunkNet : String → Except String (List GoVal))
    (r : HttpResp) (st1 : RLState) (n1 : Nat) (ev1 : List NetEvent) :
    Except GoPanic ((Option String × Option GoErr) × Nat) :=
  match s3LinkOf r.bodyVal with
  | some link =>
      match retryingGet now c.handler c.getRetries st1 ev1 with
      | (GetOutcome.rateLimitExceeded t, _, n2, _) =>
          Except.ok ((none, some (GoErr.rateLimit t)), n1 + n2)
      | (GetOutcome.netError e, _, n2, _) =>
          Except.ok ((none, some (GoErr.net e)), n1 + n2)
      | (GetOutcome.needMoreNet, _, n2, _) =>
          Except.ok ((none, some GoErr.modelOutOfEvents), n1 + n2)
      | (GetOutcome.finished none, _, _, _) => Except.error GoPanic.nilDeref
      | (GetOutcome.finished (some r2), _, n2, _) =>
          let _ := link
          getChunkPhase chunkNet r2.bodyVal (n1 + n2)
  | none =>
      match dataUrlOf r.bodyVal with
      | some dataUrl =>
          match retryingGet now c.handler c.getRetries st1 ev1 with
          | (GetOutcome.rateLimitExceeded t, _, n2, _) =>
              Except.ok ((none, some (GoErr.rateLimit t)), n1 + n2)
          | (GetOutcome.netError e, _, n2, _) =>
              Except.ok ((none, some (GoErr.net e)), n1 + n2)
          | (GetOutcome.needMoreNet, _, n2, _) =>
              Except.ok ((none, some GoErr.modelOutOfEvents), n1 + n2)
          | (GetOutcome.finished none, _, _, _) => Except.error GoPanic.nilDeref
          | (GetOutcome.finished (some r2), _, n2, _) =>
              let _ := dataUrl
              getChunkPhase chunkNet r2.bodyVal (n1 + n2)
      | none => getChunkPhase chunkNet r.bodyVal n1

/-- `Get`: auth guard, primary request through `retryingGet`, the non-200
check, redirect following and chunk resolution.  Returns the
`(data, err)` pair and the number of `httpClient.Get` calls issued
(chunk fetches live behind `chunkNet` and are not counted).  A nil
response with nil error from the transport panics at the deferred
`resp.Body.Close()`. -/
def Get (c : Client) (now : Int) (uri : String) (events : List NetEvent)
    (chunkNet : String → Except String (List GoVal)) :
    Except GoPanic ((Option String × Option GoErr) × Nat) :=
  if c.isAuthed = false then
    Except.ok ((none, some (GoErr.msg mustAuthMsg)), 0)
  else
    let _ := uri
    match retryingGet now c.handler c.getRetries c.rl events with
    | (GetOutcome.rateLimitExceeded t, _, n1, _) =>
        Except.ok ((none, some (GoErr.rateLimit t)), n1)
    | (GetOutcome.netError e, _, n1, _) =>
        Except.ok ((none, some (GoErr.net e)), n1)
    | (GetOutcome.needMoreNet, _, n1, _) =>
        Except.ok ((none, some GoErr.modelOutOfEvents), n1)
    | (GetOutcome.finished none, _, _, _) => Except.error GoPanic.nilDeref
    | (GetOutcome.finished (some r), st1, n1, ev1) =>
        if r.status ≠ 200 then
          Except.ok ((none, some (GoErr.msg (non200Msg r.status (jsonMarshal r.bodyVal)))), n1)
        else
          getFollowPhase c now chunkNet r st1 n1 ev1

/-! ## Cache layer (cache.go) and `GetWithCache` (irdata.go)

The bitcask store is an oracle: one lookup outcome for the read path, one
optional store error for the write path. -/

/-- Outcome of `cask.Get`: found data, `ErrKeyNotFound`/`ErrKeyExpired`
(both mapped to `(nil, nil)` by `getCachedData`), or a genuine store
error. -/
inductive CaskLookup : Type where
  | found (data : String)
  | noData
  | storeErr (e : String)

def cacheGetErrMsg (key e : String) : String :=
  "irdata: cache get error for " ++ key ++ " [" ++ e ++ "]"

def cachePutErrMsg (key e : String) : String :=
  "irdata: cache put error for " ++ key ++ " [" ++ e ++ "]"

/-- `getCachedData`. -/
def getCachedData (key : String) : CaskLookup → Option String × Option GoErr
  | CaskLookup.found d => (some d, none)
  | CaskLookup.noData => (none, none)
  | CaskLookup.storeErr e => (none, some (GoErr.msg (cacheGetErrMsg key e)))

/-- `setCachedData`: wrap a `PutWithTTL` failure in `makeErrorf`. -/
def setCachedData (key : String) : Option String → Option GoErr
  | some e => some (GoErr.msg (cachePutErrMsg key e))
  | none => none

/-- `GetWithCache`: cache-enabled guard, cache read (errors propagate,
no-data falls through), network fetch via `Get`, cache write whose failure
is returned together with the fetched data.  Result: the `(data, err)`
pair, the number of cache reads, and the number of network attempts. -/
def GetWithCache (c : Client) (now : Int) (uri : String)
    (lookupRes : CaskLookup) (storeRes : Option String)
    (events : List NetEvent) (chunkNet : String → Except String (List GoVal)) :
    Except GoPanic ((Option String × Option GoErr) × Nat × Nat) :=
  if c.cacheEnabled = false then
    Except.ok ((none, some (GoErr.msg cacheMustMsg)), 0, 0)
  else
    match getCachedData uri lookupRes with
    | (_, some e) => Except.ok ((none, some e), 1, 0)
    | (some d, none) => Except.ok ((some d, none), 1, 0)
    | (none, none) =>
        match Get c now uri events chunkNet with
        | Except.error p => Except.error p
        | Except.ok ((_, some e), n) => Except.ok ((none, some e), 1, n)
        | Except.ok ((d, none), n) =>
            match setCachedData uri storeRes with
            | some e => Except.ok ((d, some e), 1, n)
            | none => Except.ok ((d, none), 1, n)

/-! ## Cache shutdown (`cacheClose`, cache.go)

`cacheClose` is all effects, so it is embedded as the trace of store
operations it performs: `RunGC`, `Merge` and the deferred `Close`.  The
oracle `mr k` is the outcome of the k-th `Merge` attempt (1-based). -/

inductive CacheEvent : Type where
  | runGC
  | merge
  | closeStore
deriving DecidableEq

inductive MergeOutcome : Type where
  | success
  | keyExpired
  | failed (e : String)

/-- The `for attempts := 1; attempts <= 3; attempts++` loop: merge; stop
on success or a non-expiry error; on `ErrKeyExpired` re-run GC and retry.
The loop guard `attempts <= 3` bounds the iteration count by 3, which is
passed as structural fuel. -/
def mergeLoop (mr : Nat → MergeOutcome) : Nat → Nat → List CacheEvent
  | 0, _ => []
  | fuel + 1, attempt =>
      if attempt ≤ 3 then
        CacheEvent.merge ::
          (match mr attempt with
           | MergeOutcome.success => []
           | MergeOutcome.keyExpired => CacheEvent.runGC :: mergeLoop mr fuel (attempt + 1)
           | MergeOutcome.failed _ => [])
      else []

/-- `cacheClose`: deferred `cask.Close()` always runs last; one initial
`RunGC` (its error only logged); then the bounded merge loop. -/
def cacheClose (mr : Nat → MergeOutcome) : List CacheEvent :=
  (CacheEvent.runGC :: mergeLoop mr 3 1) ++ [CacheEvent.closeStore]

/-! ## Secret masking (`maskSecret`, auth.go)

`maskSecret(secret, id)` writes `secret` and then `strings.ToLower(id)`
into one SHA-256 hasher and base64-encodes the digest.  SHA-256 is
implemented here concretely (FIPS 180-4, as Go's crypto/sha256); bytes are
`Nat` below 256.  Strings are taken as their code points, which agrees
with the Go string bytes for the ASCII inputs involved. -/

def add32 (a b : Nat) : Nat := (a + b) % 2 ^ 32

def rotr32 (n x : Nat) : Nat := ((x >>> n) ||| (x <<< (32 - n))) % 2 ^ 32

def smallSigma0 (x : Nat) : Nat := (rotr32 7 x) ^^^ (rotr32 18 x) ^^^ (x >>> 3)

def smallSigma1 (x : Nat) : Nat := (rotr32 17 x) ^^^ (rotr32 19 x) ^^^ (x >>> 10)

def bigSigma0 (x : Nat) : Nat := (rotr32 2 x) ^^^ (rotr32 13 x) ^^^ (rotr32 22 x)

def bigSigma1 (x : Nat) : Nat := (rotr32 6 x) ^^^ (rotr32 11 x) ^^^ (rotr32 25 x)

def chFun (x y z : Nat) : Nat := (x &&& y) ^^^ ((x ^^^ (2 ^ 32 - 1)) &&& z)

def majFun (x y z : Nat) : Nat := (x &&& y) ^^^ (x &&& z) ^^^ (y &&& z)

def shaK : List Nat :=
  [1116352408, 1899447441, 3049323471, 3921009573, 961987163,
   1508970993, 2453635748, 2870763221, 3624381080, 310598401,
   607225278, 1426881987, 1925078388, 2162078206, 2614888103,
   3248222580, 3835390401, 4022224774, 264347078, 604807628,
   770255983, 1249150122, 1555081692, 1996064986, 2554220882,
   2821834349, 2952996808, 3210313671, 3336571891, 3584528711,
   113926993, 338241895, 666307205, 773529912, 1294757372,
   1396182291, 1695183700, 1986661051, 2177026350, 2456956037,
   2730485921, 2820302411, 3259730800, 3345764771, 3516065817,
   3600352804, 4094571909, 275423344, 430227734, 506948616,
   659060556, 883997877, 958139571, 1322822218, 1537002063,
   1747873779, 1955562222, 2024104815, 2227730452, 2361852424,
   2428436474, 2756734187, 3204031479, 3329325298]

def shaH0 : List Nat :=
  [1779033703, 3144134277, 1013904242, 2773480762,
   1359893119, 2600822924, 528734635, 1541459225]

/-- Big-endian 8-byte encoding of the bit length. -/
def be64 (n : Nat) : List Nat :=
  [n / 2 ^ 56 % 256, n / 2 ^ 48 % 256, n / 2 ^ 40 % 256, n / 2 ^ 32 % 256,
   n / 2 ^ 24 % 256, n / 2 ^ 16 % 256, n / 2 ^ 8 % 256, n % 256]

/-- FIPS 180-4 padding: one 0x80 byte, zeros to 56 mod 64, then the
64-bit big-endian message bit length. -/
def sha256pad (msg : List Nat) : List Nat :=
  let zeros := (120 - (msg.length + 1) % 64) % 64
  msg ++ [128] ++ List.replicate zeros 0 ++ be64 (msg.length * 8)

/-- Group bytes into big-endian 32-bit words. -/
def toWords : List Nat → List Nat
  | b0 :: b1 :: b2 :: b3 :: rest =>
      (((b0 * 256 + b1) * 256 + b2) * 256 + b3) :: toWords rest
  | _ => []

/-- Extend the 16 block words to the 64-entry message schedule. -/
def extendW (ws : List Nat) : Nat → List Nat
  | 0 => ws
  | fuel + 1 =>
      let t := ws.length
      let w := add32 (add32 (smallSigma1 (ws.getD (t - 2) 0)) (ws.getD (t - 7) 0))
        (add32 (smallSigma0 (ws.getD (t - 15) 0)) (ws.getD (t - 16) 0))
      extendW (ws ++ [w]) fuel

structure ShaState : Type where
  a : Nat
  b : Nat
  c : Nat
  d : Nat
  e : Nat
  f : Nat
  g : Nat
  hh : Nat

def shaRound (st : ShaState) (kw : Nat × Nat) : ShaState :=
  let t1 := add32 st.hh (add32 (bigSigma1 st.e) (add32 (chFun st.e st.f st.g) (add32 kw.1 kw.2)))
  let t2 := add32 (bigSigma0 st.a) (majFun st.a st.b st.c)
  ⟨add32 t1 t2, st.a, st.b, st.c, add32 st.d t1, st.e, st.f, st.g⟩

/-- One compression-function application over a 64-byte block. -/
def shaBlock (hv : List Nat) (block : List Nat) : List Nat :=
  let ws := extendW (toWords block) 48
  let st0 : ShaState :=
    ⟨hv.getD 0 0, hv.getD 1 0, hv.getD 2 0, hv.getD 3 0,
     hv.getD 4 0, hv.getD 5 0, hv.getD 6 0, hv.getD 7 0⟩
  let st := List.foldl shaRound st0 (shaK.zip ws)
  [add32 (hv.getD 0 0) st.a, add32 (hv.getD 1 0) st.b,
   add32 (hv.getD 2 0) st.c, add32 (hv.getD 3 0) st.d,
   add32 (hv.getD 4 0) st.e, add32 (hv.getD 5 0) st.f,
   add32 (hv.getD 6 0) st.g, add32 (hv.getD 7 0) st.hh]

/-- Split into 64-byte blocks; each step consumes at least one byte, so
the input length is enough fuel. -/
def chunkBlocksFuel : Nat → List Nat → List (List Nat)
  | 0, _ => []
  | _, [] => []
  | fuel + 1, b :: rest => ((b :: rest).take 64) :: chunkBlocksFuel fuel ((b :: rest).drop 64)

def chunkBlocks (l : List Nat) : List (List Nat) :=
  chunkBlocksFuel l.length l

def wordBytes (w : Nat) : List Nat :=
  [w / 2 ^ 24 % 256, w / 2 ^ 16 % 256, w / 2 ^ 8 % 256, w % 256]

/-- SHA-256 of a byte sequence. -/
def sha256 (msg : List Nat) : List Nat :=
  let hv := List.foldl shaBlock shaH0 (chunkBlocks (sha256pad msg))
  (hv.map wordBytes).flatten

/-! Base64 (standard alphabet, `base64.StdEncoding`). -/

def b64Alphabet : String :=
  "ABCDEFGHIJKLMNOPQRSTUVWXYZabcdefghijklmnopqrstuvwxyz0123456789+/"

def b64Char (n : Nat) : Char := b64Alphabet.data.getD n (Char.ofNat 65)

def base64Encode : List Nat → String
  | [] => ""
  | [b0] =>
      String.mk [b64Char (b0 / 4), b64Char (b0 % 4 * 16), Char.ofNat 61, Char.ofNat 61]
  | [b0, b1] =>
      String.mk [b64Char (b0 / 4), b64Char (b0 % 4 * 16 + b1 / 16),
        b64Char (b1 % 16 * 4), Char.ofNat 61]
  | b0 :: b1 :: b2 :: rest =>
      String.mk [b64Char (b0 / 4), b64Char (b0 % 4 * 16 + b1 / 16),
        b64Char (b1 % 16 * 4 + b2 / 64), b64Char (b2 % 64)] ++ base64Encode rest

/-- Go string bytes (the claims only involve ASCII, where code points and
UTF-8 bytes agree). -/
def strBytes (s : String) : List Nat := s.data.map Char.toNat

/-- `strings.ToLower` (ASCII inputs). -/
def lowerString (s : String) : String := String.mk (s.data.map Char.toLower)

/-- `maskSecret` (auth.go): base64 of the SHA-256 of the secret followed
by the lowercased id, with no separator. -/
def maskSecret (secret : String) (id : String) : String :=
  base64Encode (sha256 (strBytes secret ++ strBytes (lowerString id)))

/-! ## Current retrying transport with 401 refresh handling

The repository's current `irdata.go` (whose `Irdata` struct carries the
OAuth2 session fields `AccessToken`/`RefreshToken`/`authTokenFile` used by
auth.go, auth_test.go and the examples) is not part of this snapshot; only
its callee `refreshToken` and its callers are.  Its 401 branch is
therefore modelled from the spec. -/

/-- Outcome of the modelled transport. -/
inductive SpecOutcome : Type where
  | ok (r : HttpResp)
  | failed (e : String)
  | outOfEvents

/-- Modelled from the spec: the 401/refresh and 5xx/budget behavior of the
current retrying transport, which is missing from the snapshot (§4.3:
"(e) on HTTP 401, invoke a token refresh and, if refresh succeeds, retry
the same attempt without counting it against the retry budget — if refresh
fails, stop and surface the 401; ... (g) on any 5xx, decrement the retry
budget ...; (h) on any other status ... stop and return the response
as-is"; "a budget of zero means try exactly once").  `refreshOk k` is the
outcome of the (k+1)-th `refreshToken` call; the returned `Nat` counts the
refresh invocations. -/
def specRetryingGet (refreshOk : Nat → Bool) :
    List NetEvent → Int → Nat → SpecOutcome × Nat
  | [], _, rc => (SpecOutcome.outOfEvents, rc)
  | NetEvent.failure e :: _, _, rc => (SpecOutcome.failed e, rc)
  | NetEvent.success r :: rest, budget, rc =>
      if r.status = 401 then
        if refreshOk rc then specRetryingGet refreshOk rest budget (rc + 1)
        else (SpecOutcome.ok r, rc + 1)
      else if 500 ≤ r.status then
        if budget > 0 then specRetryingGet refreshOk rest (budget - 1) rc
        else (SpecOutcome.ok r, rc)
      else (SpecOutcome.ok r, rc)

/-! ## Helper lemmas -/

theorem retryingGet_reject_blocked (now cfg : Int) (st : RLState) (events : List NetEvent)
    (h1 : st.remaining ≤ 0) (h2 : now < st.reset) :
    retryingGet now RateLimitHandler.RateLimitError cfg st events =
      (GetOutcome.rateLimitExceeded st.reset, st, 0, events) := by
  unfold retryingGet
  rw [if_pos ⟨h1, h2⟩]

theorem rgLoop_wait_no_rl :
    ∀ (events : List NetEvent) (retries : Int) (st : RLState)
      (lastResp : Option HttpResp) (attempts : Nat) (t : Int),
      (rgLoop RateLimitHandler.RateLimitWait events retries st lastResp attempts).1 ≠
        GetOutcome.rateLimitExceeded t := by
  intro events
  induction events with
  | nil =>
      intro retries st lastResp attempts t
      simp only [rgLoop]
      split <;> simp
  | cons e rest ih =>
      intro retries st lastResp attempts t
      cases e with
      | failure e =>
          simp only [rgLoop]
          split <;> simp
      | success r =>
          simp only [rgLoop]
          by_cases hr : retries > 0
          · simp only [if_pos hr]
            by_cases h429 : r.status = 429
            · simp only [if_pos h429]
              exact ih retries (updateRateLimit st r) (some r) (attempts + 1) t
            · simp only [if_neg h429]
              by_cases h500 : r.status < 500
              · simp [h500]
              · simp only [if_neg h500]
                exact ih (retries - 1) (updateRateLimit st r) (some r) (attempts + 1) t
          · simp [hr]

theorem retryingGet_wait_no_rl (now cfg : Int) (st : RLState) (events : List NetEvent)
    (t : Int) :
    (retryingGet now RateLimitHandler.RateLimitWait cfg st events).1 ≠
      GetOutcome.rateLimitExceeded t := by
  unfold retryingGet
  split
  · exact rgLoop_wait_no_rl events cfg st none 0 t
  · exact rgLoop_wait_no_rl events cfg st none 0 t

theorem get_reject_blocked (c : Client) (now : Int) (uri : String)
    (events : List NetEvent) (chunkNet : String → Except String (List GoVal))
    (ha : c.isAuthed = true) (hh : c.handler = RateLimitHandler.RateLimitError)
    (h1 : c.rl.remaining ≤ 0) (h2 : now < c.rl.reset) :
    Get c now uri events chunkNet =
      Except.ok ((none, some (GoErr.rateLimit c.rl.reset)), 0) := by
  unfold Get
  rw [hh, retryingGet_reject_blocked now c.getRetries c.rl events h1 h2]
  simp [ha]

/-! ## Claims -/

/-- C1: under the default Reject policy, with the tracked remaining budget
exhausted and the tracked reset time still in the future, `retryingGet`
returns the typed rate-limit error carrying that reset time, issuing zero
network requests and leaving the event stream untouched; `Get` surfaces it
unchanged; and under the Wait policy the transport never produces the
typed rate-limit outcome. -/
theorem irdata_C1_reject_rate_limit :
    (∀ (now cfg : Int) (st : RLState) (events : List NetEvent),
        st.remaining ≤ 0 → now < st.reset →
        retryingGet now RateLimitHandler.RateLimitError cfg st events =
          (GetOutcome.rateLimitExceeded st.reset, st, 0, events)) ∧
    (∀ (now cfg : Int) (st : RLState) (events : List NetEvent) (t : Int),
        (retryingGet now RateLimitHandler.RateLimitWait cfg st events).1 ≠
          GetOutcome.rateLimitExceeded t) ∧
    (∀ (c : Client) (now : Int) (uri : String) (events : List NetEvent)
        (chunkNet : String → Except String (List GoVal)),
        c.isAuthed = true → c.handler = RateLimitHandler.RateLimitError →
        c.rl.remaining ≤ 0 → now < c.rl.reset →
        Get c now uri events chunkNet =
          Except.ok ((none, some (GoErr.rateLimit c.rl.reset)), 0)) :=
  ⟨fun now cfg st events h1 h2 => retryingGet_reject_blocked now cfg st events h1 h2,
   fun now cfg st events t => retryingGet_wait_no_rl now cfg st events t,
   fun c now uri events chunkNet ha hh h1 h2 =>
     get_reject_blocked c now uri events chunkNet ha hh h1 h2⟩

theorem irdata_C1_reject_rate_limit_witness :
    retryingGet 5 RateLimitHandler.RateLimitError 5 ⟨0, 10⟩ [] =
      (GetOutcome.rateLimitExceeded 10, ⟨0, 10⟩, 0, []) ∧
    Get ⟨true, false, RateLimitHandler.RateLimitError, 5, ⟨0, 10⟩⟩ 5 ("/data/member/info")
        [] (fun _ => Except.ok []) =
      Except.ok ((none, some (GoErr.rateLimit 10)), 0) :=
  ⟨irdata_C1_reject_rate_limit.1 5 5 ⟨0, 10⟩ [] (by norm_num) (by norm_num),
   irdata_C1_reject_rate_limit.2.2 ⟨true, false, RateLimitHandler.RateLimitError, 5, ⟨0, 10⟩⟩
     5 ("/data/member/info") [] (fun _ => Except.ok []) rfl rfl (by norm_num) (by norm_num)⟩

/-- C2: in the transport modelled from the spec, a 401 response always
invokes a token refresh; when the refresh succeeds the same attempt is
retried with the retry budget unchanged, and when it fails the transport
stops and surfaces the 401 response, consuming no further attempts. -/
theorem irdata_C2_refresh_on_401 :
    (∀ (refreshOk : Nat → Bool) (budget : Int) (rc : Nat) (r : HttpResp)
        (rest : List NetEvent),
        r.status = 401 → refreshOk rc = true →
        specRetryingGet refreshOk (NetEvent.success r :: rest) budget rc =
          specRetryingGet refreshOk rest budget (rc + 1)) ∧
    (∀ (refreshOk : Nat → Bool) (budget : Int) (rc : Nat) (r : HttpResp)
        (rest : List NetEvent),
        r.status = 401 → refreshOk rc = false →
        specRetryingGet refreshOk (NetEvent.success r :: rest) budget rc =
          (SpecOutcome.ok r, rc + 1)) := by
  constructor <;>
    · intro refreshOk budget rc r rest h1 h2
      simp [specRetryingGet, h1, h2]

def resp401 : HttpResp := ⟨401, none, none, GoVal.str ("unauthorized")⟩

def resp200ok : HttpResp := ⟨200, some 99, some 0, GoVal.str ("ok")⟩

theorem irdata_C2_refresh_on_401_witness :
    specRetryingGet (fun _ => true) (NetEvent.success resp401 :: [NetEvent.success resp200ok]) 5 0 =
      specRetryingGet (fun _ => true) [NetEvent.success resp200ok] 5 1 ∧
    specRetryingGet (fun _ => false) (NetEvent.success resp401 :: [NetEvent.success resp200ok]) 5 0 =
      (SpecOutcome.ok resp401, 1) :=
  ⟨irdata_C2_refresh_on_401.1 (fun _ => true) 5 0 resp401 [NetEvent.success resp200ok] rfl rfl,
   irdata_C2_refresh_on_401.2 (fun _ => false) 5 0 resp401 [NetEvent.success resp200ok] rfl rfl⟩

/-- C5: the code does not honor "a budget of zero means try exactly
once": with `SetRetries 0` the `for retries > 0` loop of `retryingGet`
never runs, so zero request attempts are issued even though a response is
available, and the transport returns its zero values `(nil, nil)`, on
which `Get` dereferences the nil response. -/
theorem irdata_C5_zero_retries_zero_attempts :
    (SetRetries ⟨true, false, RateLimitHandler.RateLimitError, 5, ⟨100, 0⟩⟩ 0).getRetries = 0 ∧
    retryingGet 10 RateLimitHandler.RateLimitError 0 ⟨100, 0⟩ [NetEvent.success resp200ok] =
      (GetOutcome.finished none, ⟨100, 0⟩, 0, [NetEvent.success resp200ok]) ∧
    Get (SetRetries ⟨true, false, RateLimitHandler.RateLimitError, 5, ⟨100, 0⟩⟩ 0) 10
        ("/data/member/info") [NetEvent.success resp200ok] (fun _ => Except.ok []) =
      Except.error GoPanic.nilDeref :=
  ⟨rfl, rfl, rfl⟩

/-- C9: the public fetch operations guard their preconditions before any
work: an unauthenticated `Get` fails with the auth error having issued
zero network attempts and independently of the network oracle, and
`GetWithCache` without an enabled cache fails with the cache error having
performed zero cache reads and zero network attempts, independently of
both oracles. -/
theorem irdata_C9_precondition_guards :
    (∀ (c : Client) (now : Int) (uri : String) (events : List NetEvent)
        (chunkNet : String → Except String (List GoVal)),
        c.isAuthed = false →
        Get c now uri events chunkNet =
          Except.ok ((none, some (GoErr.msg mustAuthMsg)), 0)) ∧
    (∀ (c : Client) (now : Int) (uri : String) (lookupRes : CaskLookup)
        (storeRes : Option String) (events : List NetEvent)
        (chunkNet : String → Except String (List GoVal)),
        c.cacheEnabled = false →
        GetWithCache c now uri lookupRes storeRes events chunkNet =
          Except.ok ((none, some (GoErr.msg cacheMustMsg)), 0, 0)) := by
  constructor
  · intro c now uri events chunkNet h
    unfold Get
    rw [if_pos h]
  · intro c now uri lookupRes storeRes events chunkNet h
    unfold GetWithCache
    rw [if_pos h]

theorem irdata_C9_precondition_guards_witness :
    Get ⟨false, false, RateLimitHandler.RateLimitError, 5, ⟨100, 0⟩⟩ 0 ("/data/member/info")
        [NetEvent.success resp200ok] (fun _ => Except.ok []) =
      Except.ok ((none, some (GoErr.msg mustAuthMsg)), 0) ∧
    GetWithCache ⟨true, false, RateLimitHandler.RateLimitError, 5, ⟨100, 0⟩⟩ 0
        ("/data/member/info") CaskLookup.noData none [NetEvent.success resp200ok]
        (fun _ => Except.ok []) =
      Except.ok ((none, some (GoErr.msg cacheMustMsg)), 0, 0) :=
  ⟨irdata_C9_precondition_guards.1 ⟨false, false, RateLimitHandler.RateLimitError, 5, ⟨100, 0⟩⟩
     0 ("/data/member/info") [NetEvent.success resp200ok] (fun _ => Except.ok []) rfl,
   irdata_C9_precondition_guards.2 ⟨true, false, RateLimitHandler.RateLimitError, 5, ⟨100, 0⟩⟩
     0 ("/data/member/info") CaskLookup.noData none [NetEvent.success resp200ok]
     (fun _ => Except.ok []) rfl⟩

/-- C6 counterexample: the claim "digests differ whenever either argument
differs" fails — the id is lowercased before hashing, so two pairs whose
ids differ only in letter case produce the same digest. -/
theorem irdata_C6_counterexample :
    maskSecret ("we-are-faster") ("Ferrari") = maskSecret ("we-are-faster") ("ferrari") ∧
    ("Ferrari" : String) ≠ ("ferrari") := by
  constructor
  · unfold maskSecret
    rw [show lowerString ("Ferrari") = lowerString ("ferrari") from by decide]
  · decide

/-- C6 amended: masking computes `base64(sha256(secret ++ lower(id)))`;
it is deterministic and depends on exactly the byte string
`secret ++ lowercase(id)` — pairs with equal concatenations (such as ids
differing only in case) collide, so distinct digests are not guaranteed
for distinct pairs; digests do differ for concretely distinct
concatenations, e.g. swapping the two arguments. -/
theorem irdata_C6_amended :
    (∀ (s i : String),
        maskSecret s i = base64Encode (sha256 (strBytes s ++ strBytes (lowerString i)))) ∧
    (∀ (s1 i1 s2 i2 : String),
        strBytes s1 ++ strBytes (lowerString i1) = strBytes s2 ++ strBytes (lowerString i2) →
        maskSecret s1 i1 = maskSecret s2 i2) ∧
    maskSecret ("a") ("b") ≠ maskSecret ("b") ("a") := by
  refine ⟨fun s i => rfl, fun s1 i1 s2 i2 h => ?_, ?_⟩
  · unfold maskSecret
    rw [h]
  · decide

theorem irdata_C6_amended_witness :
    maskSecret ("x") ("AB") = maskSecret ("x") ("ab") :=
  irdata_C6_amended.2.1 ("x") ("AB") ("x") ("ab") (by decide)

/-- C7: on a cache miss followed by a successful network fetch, a failing
cache write does not discard the fetched data — `GetWithCache` returns the
fetched bytes together with the wrapped store error. -/
theorem irdata_C7_store_error_returns_data (c : Client) (now : Int) (uri : String)
    (e : String) (events : List NetEvent)
    (chunkNet : String → Except String (List GoVal)) (d : String) (n : Nat)
    (hc : c.cacheEnabled = true)
    (hget : Get c now uri events chunkNet = Except.ok ((some d, none), n)) :
    GetWithCache c now uri CaskLookup.noData (some e) events chunkNet =
      Except.ok ((some d, some (GoErr.msg (cachePutErrMsg uri e))), 1, n) := by
  unfold GetWithCache
  rw [hc]
  simp [getCachedData, hget, setCachedData]

def c7client : Client := ⟨true, true, RateLimitHandler.RateLimitError, 5, ⟨100, 0⟩⟩

theorem irdata_C7_store_error_returns_data_witness :
    GetWithCache c7client 10 ("/data/member/info") CaskLookup.noData (some ("disk full"))
        [NetEvent.success resp200ok] (fun _ => Except.ok []) =
      Except.ok ((some ("\"ok\""),
        some (GoErr.msg (cachePutErrMsg ("/data/member/info") ("disk full")))), 1, 1) :=
  irdata_C7_store_error_returns_data c7client 10 ("/data/member/info") ("disk full")
    [NetEvent.success resp200ok] (fun _ => Except.ok []) ("\"ok\"") 1 rfl rfl

def countMerge (tr : List CacheEvent) : Nat := tr.count CacheEvent.merge

/-- C8: closing the cache runs garbage collection and then compaction; a
compaction failure from keys expiring mid-scan triggers another GC and a
bounded retry (at most 3 merge attempts in total), and the underlying
store is closed in every case (the trace always ends with the deferred
close and the function never fails). -/
theorem irdata_C8_cache_close (mr : Nat → MergeOutcome) :
    (cacheClose mr).getLast? = some CacheEvent.closeStore ∧
    countMerge (cacheClose mr) ≤ 3 ∧
    (cacheClose mr).take 2 = [CacheEvent.runGC, CacheEvent.merge] ∧
    (mr 1 = MergeOutcome.keyExpired →
      (cacheClose mr).take 4 =
        [CacheEvent.runGC, CacheEvent.merge, CacheEvent.runGC, CacheEvent.merge]) ∧
    (mr 1 = MergeOutcome.keyExpired → mr 2 = MergeOutcome.keyExpired →
      (cacheClose mr).take 6 =
        [CacheEvent.runGC, CacheEvent.merge, CacheEvent.runGC, CacheEvent.merge,
         CacheEvent.runGC, CacheEvent.merge]) := by
  cases h1 : mr 1 <;> cases h2 : mr 2 <;> cases h3 : mr 3 <;>
    simp [cacheClose, mergeLoop, countMerge, h1, h2, h3]

theorem irdata_C8_cache_close_witness :
    (cacheClose (fun _ => MergeOutcome.keyExpired)).take 6 =
      [CacheEvent.runGC, CacheEvent.merge, CacheEvent.runGC, CacheEvent.merge,
       CacheEvent.runGC, CacheEvent.merge] ∧
    (cacheClose (fun _ => MergeOutcome.keyExpired)).getLast? = some CacheEvent.closeStore :=
  ⟨(irdata_C8_cache_close (fun _ => MergeOutcome.keyExpired)).2.2.2.2 rfl rfl,
   (irdata_C8_cache_close (fun _ => MergeOutcome.keyExpired)).1⟩

/-- C10: when the primary response that the transport settles on has a
status other than 200, `Get` returns a nil payload and a `makeErrorf`
error whose message contains the status code and the response body; the
body is never returned as a success value. -/
theorem irdata_C10_non200_error (c : Client) (now : Int) (uri : String)
    (events : List NetEvent) (chunkNet : String → Except String (List GoVal))
    (r : HttpResp) (st1 : RLState) (n1 : Nat) (ev1 : List NetEvent)
    (ha : c.isAuthed = true)
    (hr : retryingGet now c.handler c.getRetries c.rl events =
      (GetOutcome.finished (some r), st1, n1, ev1))
    (hs : r.status ≠ 200) :
    Get c now uri events chunkNet =
      Except.ok ((none, some (GoErr.msg (non200Msg r.status (jsonMarshal r.bodyVal)))), n1) ∧
    (∃ pre post, non200Msg r.status (jsonMarshal r.bodyVal) =
        pre ++ toString r.status ++ post) ∧
    (∃ pre, non200Msg r.status (jsonMarshal r.bodyVal) =
        pre ++ jsonMarshal r.bodyVal) := by
  refine ⟨?_, ?_, ?_⟩
  · unfold Get
    simp [ha, hr, hs]
  · refine ⟨("irdata: received non-200 status code: "),
      (" - body: ") ++ jsonMarshal r.bodyVal, ?_⟩
    simp [non200Msg, String.append_assoc]
  · refine ⟨("irdata: received non-200 status code: ") ++ toString r.status ++ (" - body: "), ?_⟩
    simp [non200Msg, String.append_assoc]

def resp404 : HttpResp := ⟨404, none, none, GoVal.str ("nope")⟩

/-! ## C3/C4 machinery: chunk merging -/

theorem lookupField_setField (es : List (String × GoVal)) (key : String) (v : GoVal) :
    lookupField (setField es key v) key = some v := by
  induction es with
  | nil => simp [setField, lookupField]
  | cons p rest ih =>
      obtain ⟨k, w⟩ := p
      by_cases h : k = key
      · simp [setField, h, lookupField]
      · simp [setField, h, lookupField, ih]

theorem fetchChunksLoop_ok (net : String → Except String (List GoVal))
    (ci : List (String × GoVal)) (chunks : GoVal → List GoVal) :
    ∀ (fns : List GoVal) (acc : List GoVal),
      (∀ fn ∈ fns, net (chunkUrlOf ci fn) = Except.ok (chunks fn)) →
      fetchChunksLoop net ci fns acc = Except.ok (acc ++ (fns.map chunks).flatten) := by
  intro fns
  induction fns with
  | nil => intro acc _; simp [fetchChunksLoop]
  | cons fn rest ih =>
      intro acc h
      have hfn : net (chunkUrlOf ci fn) = Except.ok (chunks fn) := h fn (by simp)
      simp only [fetchChunksLoop, hfn]
      rw [ih (acc ++ chunks fn) (fun g hg => h g (by simp [hg]))]
      simp

/-- `chunkArm` never yields a clean (no chunk data, no error) level. -/
theorem chunkArm_no_clean (kv : String × GoVal) (rest : List (String × GoVal))
    (res : Except GoPanic (Except String (List GoVal))) (tail : EntriesResult)
    (pre2 : List (String × GoVal)) :
    chunkArm kv rest res tail ≠ Except.ok (pre2, none, none) := by
  rcases res with p | inner
  · simp [chunkArm]
  · rcases inner with e | results
    · simp [chunkArm]
    · rcases tail with p | ⟨rest2, cd, errOpt⟩
      · simp [chunkArm]
      · simp [chunkArm]

/-- Inversion for a cleanly processed non-chunk entry, together with how
the same entry acts on any other tail. -/
theorem nonChunkArm_ok_inv (net : String → Except String (List GoVal)) (k : String)
    (v : GoVal) (tail : EntriesResult) (pre2 : List (String × GoVal))
    (h : nonChunkArm net k v tail = Except.ok (pre2, none, none)) :
    ∃ v2 pre2', tail = Except.ok (pre2', none, none) ∧ pre2 = (k, v2) :: pre2' ∧
      ∀ (tail2 : EntriesResult) (rest2 : List (String × GoVal))
        (cd : Option (List GoVal)) (errOpt : Option String),
        tail2 = Except.ok (rest2, cd, errOpt) →
        nonChunkArm net k v tail2 = Except.ok ((k, v2) :: rest2, cd, errOpt) := by
  cases v with
  | obj o =>
      rw [nonChunkArm.eq_def] at h
      replace h : objArm k (resolveChunks net o) tail = Except.ok (pre2, none, none) := h
      rcases hro : resolveChunks net o with p | pair
      · rw [hro] at h; simp [objArm] at h
      · obtain ⟨o2, errD⟩ := pair
        rw [hro] at h
        rcases htail : tail with p | trip
        · rw [htail] at h; simp [objArm] at h
        · obtain ⟨rest2, cd, errOpt⟩ := trip
          rw [htail] at h
          simp only [objArm, Except.ok.injEq, Prod.mk.injEq] at h
          obtain ⟨h1, h2, h3⟩ := h
          subst h2 h3
          refine ⟨GoVal.obj o2, rest2, rfl, h1.symm, ?_⟩
          intro tail2 rest2b cd errOpt htail2
          rw [nonChunkArm.eq_def]
          show objArm k (resolveChunks net o) tail2 = _
          rw [hro, htail2]
          simp [objArm]
  | null =>
      rw [nonChunkArm.eq_def] at h
      replace h : plainArm k (GoVal.null) tail = Except.ok (pre2, none, none) := h
      rcases htail : tail with p | trip
      · rw [htail] at h; simp [plainArm] at h
      · obtain ⟨rest2, cd, errOpt⟩ := trip
        rw [htail] at h
        simp only [plainArm, Except.ok.injEq, Prod.mk.injEq] at h
        obtain ⟨h1, h2, h3⟩ := h
        subst h2 h3
        refine ⟨GoVal.null, rest2, rfl, h1.symm, ?_⟩
        intro tail2 rest2b cd errOpt htail2
        rw [nonChunkArm.eq_def]
        show plainArm k (GoVal.null) tail2 = _
        rw [htail2]
        simp [plainArm]
  | boolV b =>
      rw [nonChunkArm.eq_def] at h
      replace h : plainArm k (GoVal.boolV b) tail = Except.ok (pre2, none, none) := h
      rcases htail : tail with p | trip
      · rw [htail] at h; simp [plainArm] at h
      · obtain ⟨rest2, cd, errOpt⟩ := trip
        rw [htail] at h
        simp only [plainArm, Except.ok.injEq, Prod.mk.injEq] at h
        obtain ⟨h1, h2, h3⟩ := h
        subst h2 h3
        refine ⟨GoVal.boolV b, rest2, rfl, h1.symm, ?_⟩
        intro tail2 rest2b cd errOpt htail2
        rw [nonChunkArm.eq_def]
        show plainArm k (GoVal.boolV b) tail2 = _
        rw [htail2]
        simp [plainArm]
  | num n =>
      rw [nonChunkArm.eq_def] at h
      replace h : plainArm k (GoVal.num n) tail = Except.ok (pre2, none, none) := h
      rcases htail : tail with p | trip
      · rw [htail] at h; simp [plainArm] at h
      · obtain ⟨rest2, cd, errOpt⟩ := trip
        rw [htail] at h
        simp only [plainArm, Except.ok.injEq, Prod.mk.injEq] at h
        obtain ⟨h1, h2, h3⟩ := h
        subst h2 h3
        refine ⟨GoVal.num n, rest2, rfl, h1.symm, ?_⟩
        intro tail2 rest2b cd errOpt htail2
        rw [nonChunkArm.eq_def]
        show plainArm k (GoVal.num n) tail2 = _
        rw [htail2]
        simp [plainArm]
  | str sv =>
      rw [nonChunkArm.eq_def] at h
      replace h : plainArm k (GoVal.str sv) tail = Except.ok (pre2, none, none) := h
      rcases htail : tail with p | trip
      · rw [htail] at h; simp [plainArm] at h
      · obtain ⟨rest2, cd, errOpt⟩ := trip
        rw [htail] at h
        simp only [plainArm, Except.ok.injEq, Prod.mk.injEq] at h
        obtain ⟨h1, h2, h3⟩ := h
        subst h2 h3
        refine ⟨GoVal.str sv, rest2, rfl, h1.symm, ?_⟩
        intro tail2 rest2b cd errOpt htail2
        rw [nonChunkArm.eq_def]
        show plainArm k (GoVal.str sv) tail2 = _
        rw [htail2]
        simp [plainArm]
  | arr l =>
      rw [nonChunkArm.eq_def] at h
      replace h : plainArm k (GoVal.arr l) tail = Except.ok (pre2, none, none) := h
      rcases htail : tail with p | trip
      · rw [htail] at h; simp [plainArm] at h
      · obtain ⟨rest2, cd, errOpt⟩ := trip
        rw [htail] at h
        simp only [plainArm, Except.ok.injEq, Prod.mk.injEq] at h
        obtain ⟨h1, h2, h3⟩ := h
        subst h2 h3
        refine ⟨GoVal.arr l, rest2, rfl, h1.symm, ?_⟩
        intro tail2 rest2b cd errOpt htail2
        rw [nonChunkArm.eq_def]
        show plainArm k (GoVal.arr l) tail2 = _
        rw [htail2]
        simp [plainArm]
  | nilSlice =>
      rw [nonChunkArm.eq_def] at h
      replace h : plainArm k (GoVal.nilSlice) tail = Except.ok (pre2, none, none) := h
      rcases htail : tail with p | trip
      · rw [htail] at h; simp [plainArm] at h
      · obtain ⟨rest2, cd, errOpt⟩ := trip
        rw [htail] at h
        simp only [plainArm, Except.ok.injEq, Prod.mk.injEq] at h
        obtain ⟨h1, h2, h3⟩ := h
        subst h2 h3
        refine ⟨GoVal.nilSlice, rest2, rfl, h1.symm, ?_⟩
        intro tail2 rest2b cd errOpt htail2
        rw [nonChunkArm.eq_def]
        show plainArm k (GoVal.nilSlice) tail2 = _
        rw [htail2]
        simp [plainArm]

/-- Entries that process cleanly (no error, no chunk data) compose on the
left of any suffix. -/
theorem resolveEntries_append_ok (net : String → Except String (List GoVal)) :
    ∀ (pre : List (String × GoVal)) (rest pre2 rest2 : List (String × GoVal))
      (cd : Option (List GoVal)) (errOpt : Option String),
      resolveEntries net pre = Except.ok (pre2, none, none) →
      resolveEntries net rest = Except.ok (rest2, cd, errOpt) →
      resolveEntries net (pre ++ rest) = Except.ok (pre2 ++ rest2, cd, errOpt) := by
  intro pre
  induction pre with
  | nil =>
      intro rest pre2 rest2 cd errOpt hpre hrest
      simp only [resolveEntries, Except.ok.injEq, Prod.mk.injEq] at hpre
      obtain ⟨h1, -, -⟩ := hpre
      subst h1
      simpa using hrest
  | cons p pre' ih =>
      intro rest pre2 rest2 cd errOpt hpre hrest
      obtain ⟨k, v⟩ := p
      rw [resolveEntries.eq_def] at hpre
      replace hpre :
          (if k = chunkInfoKey then
            chunkArm (k, v) pre' (computeChunkResults net v) (resolveEntries net pre')
          else nonChunkArm net k v (resolveEntries net pre')) =
            Except.ok (pre2, none, none) := hpre
      rw [List.cons_append, resolveEntries.eq_def]
      show (if k = chunkInfoKey then
          chunkArm (k, v) (pre' ++ rest) (computeChunkResults net v)
            (resolveEntries net (pre' ++ rest))
        else nonChunkArm net k v (resolveEntries net (pre' ++ rest))) =
          Except.ok (pre2 ++ rest2, cd, errOpt)
      by_cases hk : k = chunkInfoKey
      · rw [if_pos hk] at hpre
        exact absurd hpre (chunkArm_no_clean (k, v) pre' _ _ pre2)
      · rw [if_neg hk] at hpre
        rw [if_neg hk]
        obtain ⟨v2, pre2', hp', hpre2, hstep⟩ := nonChunkArm_ok_inv net k v _ pre2 hpre
        rw [hstep (resolveEntries net (pre' ++ rest)) (pre2' ++ rest2) cd errOpt
          (ih rest pre2' rest2 cd errOpt hp' hrest)]
        simp [hpre2]

/-- An object whose `chunk_info` entry lists the chunk file names `fns`,
with every chunk fetching and parsing successfully, resolves to the same
object with the concatenation of the chunk arrays (in file-name order)
stored under `ChunkDataKey`. -/
theorem resolveChunks_chunk_entry (net : String → Except String (List GoVal))
    (chunks : GoVal → List GoVal)
    (pre pre2 ci post post2 : List (String × GoVal)) (fns : List GoVal)
    (cdPost : Option (List GoVal)) (postErr : Option String)
    (hpre : resolveEntries net pre = Except.ok (pre2, none, none))
    (hfns : lookupField ci chunkFileNamesKey = some (GoVal.arr fns))
    (hnet : ∀ fn ∈ fns, net (chunkUrlOf ci fn) = Except.ok (chunks fn))
    (hpost : resolveEntries net post = Except.ok (post2, cdPost, postErr)) :
    resolveChunks net (pre ++ (chunkInfoKey, GoVal.obj ci) :: post) =
      Except.ok (setField (pre2 ++ (chunkInfoKey, GoVal.obj ci) :: post2) ChunkDataKey
        (goSlice ((fns.map chunks).flatten)), postErr) := by
  have hc : computeChunkResults net (GoVal.obj ci) =
      Except.ok (Except.ok ((fns.map chunks).flatten)) := by
    simp only [computeChunkResults, hfns, Option.getD_some]
    rw [fetchChunksLoop_ok net ci chunks fns [] hnet]
    simp
  have hentry : resolveEntries net ((chunkInfoKey, GoVal.obj ci) :: post) =
      Except.ok ((chunkInfoKey, GoVal.obj ci) :: post2,
        some ((fns.map chunks).flatten), postErr) := by
    simp only [resolveEntries, if_pos rfl, hc, hpost]
    simp [chunkArm]
  have happ := resolveEntries_append_ok net pre ((chunkInfoKey, GoVal.obj ci) :: post)
    pre2 ((chunkInfoKey, GoVal.obj ci) :: post2) (some ((fns.map chunks).flatten)) postErr
    hpre hentry
  unfold resolveChunks
  rw [happ]
  simp [finishResolve]

/-- C3: a body containing a `chunk_info` block with the chunk file names
`fns`, all fetching successfully, resolves so that the reserved chunk-data
key holds the concatenation of the individual chunk arrays in file-name
order; its length is the sum of the chunk lengths, and whenever it is
nonempty it is stored as a real JSON array. -/
theorem irdata_C3_chunk_merge (net : String → Except String (List GoVal))
    (chunks : GoVal → List GoVal)
    (pre pre2 ci post post2 : List (String × GoVal)) (fns : List GoVal)
    (cdPost : Option (List GoVal)) (postErr : Option String)
    (hpre : resolveEntries net pre = Except.ok (pre2, none, none))
    (hfns : lookupField ci chunkFileNamesKey = some (GoVal.arr fns))
    (hnet : ∀ fn ∈ fns, net (chunkUrlOf ci fn) = Except.ok (chunks fn))
    (hpost : resolveEntries net post = Except.ok (post2, cdPost, postErr)) :
    resolveChunks net (pre ++ (chunkInfoKey, GoVal.obj ci) :: post) =
      Except.ok (setField (pre2 ++ (chunkInfoKey, GoVal.obj ci) :: post2) ChunkDataKey
        (goSlice ((fns.map chunks).flatten)), postErr) ∧
    lookupField (setField (pre2 ++ (chunkInfoKey, GoVal.obj ci) :: post2) ChunkDataKey
        (goSlice ((fns.map chunks).flatten))) ChunkDataKey =
      some (goSlice ((fns.map chunks).flatten)) ∧
    ((fns.map chunks).flatten).length = (fns.map (fun fn => (chunks fn).length)).sum ∧
    ((fns.map chunks).flatten ≠ [] →
      goSlice ((fns.map chunks).flatten) = GoVal.arr ((fns.map chunks).flatten)) := by
  refine ⟨resolveChunks_chunk_entry net chunks pre pre2 ci post post2 fns cdPost postErr
      hpre hfns hnet hpost,
    lookupField_setField _ _ _, ?_, ?_⟩
  · rw [List.length_flatten, List.map_map]
    rfl
  · intro hne
    simp [goSlice, hne]

def c3net : String → Except String (List GoVal) := fun u =>
  if u = "https://cdn/c1.json" then Except.ok [GoVal.num 1, GoVal.num 2]
  else if u = "https://cdn/c2.json" then Except.ok [GoVal.num 3]
  else Except.error ("unexpected url")

def c3chunks : GoVal → List GoVal
  | GoVal.str s => if s = "c1.json" then [GoVal.num 1, GoVal.num 2] else [GoVal.num 3]
  | _ => [GoVal.num 3]

def c3ci : List (String × GoVal) :=
  [(baseDownloadUrlKey, GoVal.str ("https://cdn/")),
   (chunkFileNamesKey, GoVal.arr [GoVal.str ("c1.json"), GoVal.str ("c2.json")])]

theorem irdata_C3_chunk_merge_witness :
    resolveChunks c3net [(chunkInfoKey, GoVal.obj c3ci)] =
      Except.ok ([(chunkInfoKey, GoVal.obj c3ci),
        (ChunkDataKey, GoVal.arr [GoVal.num 1, GoVal.num 2, GoVal.num 3])], none) := by
  have h := (irdata_C3_chunk_merge c3net c3chunks [] [] c3ci [] []
      [GoVal.str ("c1.json"), GoVal.str ("c2.json")] none none
      (by simp [resolveEntries]) (by simp [c3ci, lookupField, chunkFileNamesKey, baseDownloadUrlKey])
      (by
        intro fn hfn
        simp only [List.mem_cons, List.not_mem_nil, or_false] at hfn
        rcases hfn with rfl | rfl <;> rfl)
      (by simp [resolveEntries])).1
  simpa [c3chunks, goSlice, setField, ChunkDataKey, chunkInfoKey] using h

def c10client : Client := ⟨true, false, RateLimitHandler.RateLimitError, 5, ⟨100, 0⟩⟩

theorem irdata_C10_non200_error_witness :
    Get c10client 10 ("/data/x") [NetEvent.success resp404] (fun _ => Except.ok []) =
      Except.ok ((none, some (GoErr.msg (non200Msg 404 (jsonMarshal (GoVal.str ("nope")))))), 1) :=
  (irdata_C10_non200_error c10client 10 ("/data/x") [NetEvent.success resp404]
    (fun _ => Except.ok []) resp404 ⟨100, 0⟩ 1 [] rfl rfl (by decide)).1


def c4ci : List (String × GoVal) :=
  [(baseDownloadUrlKey, GoVal.str ("https://cdn/")), (chunkFileNamesKey, GoVal.arr [])]

def c4raw : List (String × GoVal) := [(chunkInfoKey, GoVal.obj c4ci)]

def c4net : String → Except String (List GoVal) := fun _ => Except.ok []

/-- C4 counterexample: for a `chunk_info` block whose chunk-file-name list
is empty, resolution succeeds and the reserved key is present, but its
value is the nil Go slice — not an empty JSON array — and the marshalled
output carries it as JSON null, refuting "mapped to an empty array ...
and not a null value". -/
theorem irdata_C4_counterexample :
    resolveChunks c4net c4raw =
      Except.ok (c4raw ++ [(ChunkDataKey, GoVal.nilSlice)], none) ∧
    lookupField (c4raw ++ [(ChunkDataKey, GoVal.nilSlice)]) ChunkDataKey =
      some GoVal.nilSlice ∧
    GoVal.nilSlice ≠ GoVal.arr [] ∧
    jsonMarshal (GoVal.obj (c4raw ++ [(ChunkDataKey, GoVal.nilSlice)])) =
      "\x7b\"_chunk_data\":null,\"chunk_info\":\x7b\"base_download_url\":\"https://cdn/\",\"chunk_file_names\":[]\x7d\x7d" ∧
    strContains (jsonMarshal (GoVal.obj (c4raw ++ [(ChunkDataKey, GoVal.nilSlice)])))
      ("\"_chunk_data\":null") = true := by
  refine ⟨?_, rfl, ?_, ?_, ?_⟩
  · have h := resolveChunks_chunk_entry c4net (fun _ => []) [] [] c4ci [] [] [] none none
      (by simp [resolveEntries]) rfl (by intro fn hfn; cases hfn) (by simp [resolveEntries])
    simpa [goSlice, setField, c4raw, ChunkDataKey, chunkInfoKey] using h
  · intro h
    exact GoVal.noConfusion h
  · rfl
  · rfl

/-- C4 amended: for every response body containing a `chunk_info` block
whose list of chunk file names is empty, chunk resolution succeeds (no
error) and the resolved output contains the reserved chunk-data key, but
mapped to the nil Go slice — which `json.Marshal` renders as JSON null —
rather than to an empty array. -/
theorem irdata_C4_empty_chunks_null (net : String → Except String (List GoVal))
    (pre pre2 ci post post2 : List (String × GoVal))
    (cdPost : Option (List GoVal)) (postErr : Option String)
    (hpre : resolveEntries net pre = Except.ok (pre2, none, none))
    (hfns : lookupField ci chunkFileNamesKey = some (GoVal.arr []))
    (hpost : resolveEntries net post = Except.ok (post2, cdPost, postErr)) :
    resolveChunks net (pre ++ (chunkInfoKey, GoVal.obj ci) :: post) =
      Except.ok (setField (pre2 ++ (chunkInfoKey, GoVal.obj ci) :: post2) ChunkDataKey
        GoVal.nilSlice, postErr) ∧
    lookupField (setField (pre2 ++ (chunkInfoKey, GoVal.obj ci) :: post2) ChunkDataKey
        GoVal.nilSlice) ChunkDataKey = some GoVal.nilSlice := by
  have h := resolveChunks_chunk_entry net (fun _ => []) pre pre2 ci post post2 [] cdPost
    postErr hpre hfns (by intro fn hfn; cases hfn) hpost
  constructor
  · simpa [goSlice] using h
  · exact lookupField_setField _ _ _

theorem irdata_C4_empty_chunks_null_witness :
    resolveChunks c4net c4raw =
      Except.ok (setField c4raw ChunkDataKey GoVal.nilSlice, none) ∧
    lookupField (setField c4raw ChunkDataKey GoVal.nilSlice) ChunkDataKey =
      some GoVal.nilSlice := by
  have h := irdata_C4_empty_chunks_null c4net [] [] c4ci [] [] none none
    (by simp [resolveEntries]) rfl (by simp [resolveEntries])
  simpa [c4raw] using h

end Irdata
